import Mathlib

/-!
Verification of the ECHO habit-streak engine and analytics aggregator.

The definitions below are a shallow embedding of the Python services in
`backend/app/services/habit_service.py`, `analytics_service.py` and
`task_service.py`.  Calendar dates are modelled as integers (day numbers),
datetimes as rationals (seconds), database rows as records, and the two
services' stateful methods as pure state-passing functions.
-/

namespace Echo

/-! ## Streak engine (`habit_service.py`, `_update_habit_streaks`)

The current-streak loop of the source is

    while current_date in completion_dates:
        current_streak += 1
        current_date -= timedelta(days=1)

Each successful iteration visits a distinct member of `completion_dates`
that is `≤ today`, so the loop runs at most `card + 1` times; the fuel
parameter below makes that explicit while computing the very same value.
-/

def currentStreakLoop (dates : Finset ℤ) : ℕ → ℤ → ℕ
  | 0, _ => 0
  | fuel + 1, current =>
    if current ∈ dates then currentStreakLoop dates fuel (current - 1) + 1 else 0

def currentStreak (dates : Finset ℤ) (today : ℤ) : ℕ :=
  currentStreakLoop dates (dates.card + 1) today

/-- The longest-streak scan of the source:

    for i in range(1, len(all_dates)):
        if (curr_date - prev_date).days == 1: temp_streak += 1
        else: longest_streak = max(longest_streak, temp_streak); temp_streak = 1
    longest_streak = max(longest_streak, temp_streak)
-/
def streakScan : ℤ → ℕ → ℕ → List ℤ → ℕ
  | _, temp, longest, [] => max longest temp
  | prev, temp, longest, c :: rest =>
    if c - prev = 1 then streakScan c (temp + 1) longest rest
    else streakScan c 1 (max longest temp) rest

/-- Source: `all_dates = sorted(completion_dates)`; empty input yields 0, otherwise
the scan starts with `temp_streak = 1` at the first date. -/
def longestStreak (dates : Finset ℤ) : ℕ :=
  match dates.sort (· ≤ ·) with
  | [] => 0
  | d :: rest => streakScan d 1 0 rest

/-- Habit row: only the fields the streak engine touches. -/
structure HabitRec where
  id : String
  current_streak : ℤ
  longest_streak : ℤ
  deriving DecidableEq, Repr

/-- The assignment step of `_update_habit_streaks`: on an empty log set the
source resets both counters to 0 and returns early; otherwise it overwrites
`current_streak` and takes `max` for `longest_streak`. -/
def recomputeStreaks (h : HabitRec) (dates : Finset ℤ) (today : ℤ) : HabitRec :=
  if dates = ∅ then
    { h with current_streak := 0, longest_streak := 0 }
  else
    { h with
      current_streak := (currentStreak dates today : ℤ),
      longest_streak := max h.longest_streak ((longestStreak dates : ℕ) : ℤ) }

/-- Proof infrastructure: the longest-streak scan without its `longest`
accumulator (`streakScan prev temp longest rest = max longest (runsMax prev temp rest)`). -/
def runsMax : ℤ → ℕ → List ℤ → ℕ
  | _, temp, [] => temp
  | prev, temp, c :: rest =>
    if c - prev = 1 then runsMax c (temp + 1) rest else max temp (runsMax c 1 rest)

/-! ## Habit service state (`habit_service.py`)

`HabitLog` rows and the `log_habit_completion` upsert.  The database is a
pair of row lists; SQLAlchemy's `query(...).first()` becomes `List.find?`
and the in-place mutation of the found row becomes `replaceFirstLog`. -/

/-- The `HabitLogCreate` request payload. -/
structure LogCreate where
  habit_id : String
  completed_date : ℤ
  count : ℤ
  notes : Option String
  deriving DecidableEq, Repr

/-- A persisted `HabitLog` row (the surrogate primary key is not modelled). -/
structure LogRec where
  habit_id : String
  completed_date : ℤ
  count : ℤ
  notes : Option String
  deriving DecidableEq, Repr

structure DB where
  habits : List HabitRec
  logs : List LogRec
  deriving DecidableEq, Repr

/-- The `and_(HabitLog.habit_id == …, HabitLog.completed_date == …)` filter. -/
def logMatches (l : LogRec) (hid : String) (d : ℤ) : Bool :=
  l.habit_id == hid && l.completed_date == d

def mkLog (ld : LogCreate) : LogRec :=
  ⟨ld.habit_id, ld.completed_date, ld.count, ld.notes⟩

/-- Source: `existing_log.count = …; existing_log.notes = …` — update the first
matching row in place. -/
def replaceFirstLog : List LogRec → LogCreate → List LogRec
  | [], _ => []
  | l :: rest, ld =>
    if logMatches l ld.habit_id ld.completed_date then
      { l with count := ld.count, notes := ld.notes } :: rest
    else
      l :: replaceFirstLog rest ld

/-- Source: `{log.completed_date for log in logs}` over the logs of one habit. -/
def habitDates (logs : List LogRec) (hid : String) : Finset ℤ :=
  ((logs.filter (fun l => l.habit_id == hid)).map (fun l => l.completed_date)).toFinset

/-- Embedding of `_update_habit_streaks`: reads the habit's logs and rewrites its streak
counters.  The source's early `if not logs` branch coincides with the
`dates = ∅` branch of `recomputeStreaks`, since the date set is empty
exactly when the log list is. -/
def update_habit_streaks (db : DB) (hid : String) (today : ℤ) : DB :=
  { db with
    habits := db.habits.map (fun h =>
      if h.id == hid then recomputeStreaks h (habitDates db.logs hid) today else h) }

/-- The upsert branch of `log_habit_completion`: update the existing log
for `(habit_id, completed_date)` in place, or append a fresh row. -/
def upsertLogs (logs : List LogRec) (ld : LogCreate) : List LogRec :=
  match logs.find? (fun l => logMatches l ld.habit_id ld.completed_date) with
  | some _ => replaceFirstLog logs ld
  | none => logs ++ [mkLog ld]

/-- Embedding of `log_habit_completion`: `None` when the habit does not exist; otherwise
upsert the log row for `(habit_id, completed_date)`, then synchronously
recompute the habit's streaks. -/
def log_habit_completion (db : DB) (ld : LogCreate) (today : ℤ) : Option LogRec × DB :=
  match db.habits.find? (fun h => h.id == ld.habit_id) with
  | none => (none, db)
  | some _ =>
    (some (mkLog ld),
      update_habit_streaks { db with logs := upsertLogs db.logs ld } ld.habit_id today)

/-! ## Task service (`task_service.py`) -/

inductive TaskStatus where
  | todo
  | in_progress
  | completed
  | cancelled
  deriving DecidableEq, Repr

inductive TaskPriority where
  | low
  | medium
  | high
  | urgent
  deriving DecidableEq, Repr

/-- A `Task` row.  Datetimes are rationals (seconds); `created_at` is kept
optional because the analytics code guards on its presence. -/
structure Task where
  status : TaskStatus
  priority : TaskPriority
  due_date : Option ℚ
  completed_at : Option ℚ
  created_at : Option ℚ
  deriving DecidableEq, Repr

/-- The `TaskCreate` payload (title/description don't affect any claim). -/
structure TaskCreate where
  status : TaskStatus
  priority : TaskPriority
  due_date : Option ℚ
  deriving DecidableEq, Repr

/-- The `TaskUpdate` payload with `exclude_unset` semantics: `none` means the
field was not provided. -/
structure TaskUpdate where
  status : Option TaskStatus
  priority : Option TaskPriority
  due_date : Option ℚ
  deriving DecidableEq, Repr

/-- Embedding of `create_task`: copies the payload fields; `completed_at` is never set
here (the ORM default leaves it NULL) and `created_at` defaults to now. -/
def create_task (d : TaskCreate) (now : ℚ) : Task :=
  ⟨d.status, d.priority, d.due_date, none, some now⟩

/-- Embedding of `update_task` on a found row: apply the provided fields, then the
business rule — set `completed_at` when the update's status is `completed`
and it is unset; clear it when the update carries any other status. -/
def update_task (t : Task) (u : TaskUpdate) (now : ℚ) : Task :=
  let t1 : Task :=
    { t with
      status := u.status.getD t.status,
      priority := u.priority.getD t.priority,
      due_date := match u.due_date with | some d => some d | none => t.due_date }
  if u.status = some TaskStatus.completed then
    (if t1.completed_at = none then { t1 with completed_at := some now } else t1)
  else if u.status.isSome then
    { t1 with completed_at := none }
  else
    t1

/-! ## Analytics service (`analytics_service.py`)

Only the metrics that the claims (and the recommendation rules they feed)
reference are modelled: the dense per-day series, weekly trends,
day-of-week patterns, momentum, `by_frequency` and `habit_details` are not
read by any verified claim and are omitted.  Python's `round(x, n)`
(round-half-to-even) is modelled on exact rationals. -/

def roundHalfEven (q : ℚ) : ℤ :=
  let f := Rat.floor q
  let r := q - (f : ℚ)
  if r < 1 / 2 then f
  else if 1 / 2 < r then f + 1
  else if f % 2 = 0 then f else f + 1

def round2 (q : ℚ) : ℚ := ((roundHalfEven (q * 100) : ℤ) : ℚ) / 100

def round1 (q : ℚ) : ℚ := ((roundHalfEven (q * 10) : ℤ) : ℚ) / 10

/-- Source: `datetime.combine(start_date, datetime.min.time())` in seconds. -/
def dayStartTs (d : ℤ) : ℚ := 86400 * (d : ℚ)

/-- Source: `datetime.combine(end_date, datetime.max.time())` = 23:59:59.999999. -/
def dayEndTs (d : ℤ) : ℚ := 86400 * ((d : ℚ) + 1) - 1 / 1000000

/-- The `Task.created_at` range filter of `_get_task_metrics` (a SQL
comparison against NULL excludes the row). -/
def taskInWindow (t : Task) (s e : ℤ) : Bool :=
  match t.created_at with
  | none => false
  | some c => decide (dayStartTs s ≤ c) && decide (c ≤ dayEndTs e)

structure PriorityStat where
  total : ℕ
  completed : ℕ
  completion_rate : ℚ
  deriving DecidableEq, Repr

/-- The task-metrics dictionary.  `by_priority`/`by_status` are `none` when
the source returns the literal empty dict `{}` (no tasks in the window). -/
structure TaskMetrics where
  total_tasks : ℕ
  completed_tasks : ℕ
  completion_rate : ℚ
  overdue_tasks : ℕ
  by_priority : Option (TaskPriority → PriorityStat)
  by_status : Option (TaskStatus → ℕ)
  average_completion_time_hours : Option ℚ

/-- Source: `completed_with_times` — completed tasks having both timestamps. -/
def completedWithTimes (tasks : List Task) : List Task :=
  tasks.filter (fun t =>
    t.status == TaskStatus.completed && t.completed_at.isSome && t.created_at.isSome)

/-- Source: `statistics.mean` of `(completed_at - created_at).total_seconds() / 3600`. -/
def meanCompletionHours (l : List Task) : ℚ :=
  ((l.map (fun t => (t.completed_at.getD 0 - t.created_at.getD 0) / 3600)).foldr (· + ·) 0)
    / (l.length : ℚ)

def get_task_metrics (tasks : List Task) (s e : ℤ) (now : ℚ) : TaskMetrics :=
  let all_tasks := tasks.filter (fun t => taskInWindow t s e)
  if all_tasks.isEmpty then
    ⟨0, 0, 0, 0, none, none, none⟩
  else
    let total_tasks := all_tasks.length
    let completed_tasks :=
      (all_tasks.filter (fun t => t.status == TaskStatus.completed)).length
    let overdue_tasks :=
      (all_tasks.filter (fun t =>
        (match t.due_date with | some d => decide (d < now) | none => false) &&
        !(t.status == TaskStatus.completed))).length
    let completion_rate : ℚ :=
      if 0 < total_tasks then (completed_tasks : ℚ) / (total_tasks : ℚ) * 100 else 0
    let by_priority := fun p : TaskPriority =>
      let pt := all_tasks.filter (fun t => t.priority == p)
      let pc := pt.filter (fun t => t.status == TaskStatus.completed)
      PriorityStat.mk pt.length pc.length
        (if pt.isEmpty then 0 else (pc.length : ℚ) / (pt.length : ℚ) * 100)
    let by_status := fun st : TaskStatus =>
      (all_tasks.filter (fun t => t.status == st)).length
    let cwt := completedWithTimes all_tasks
    -- `round(x, 2) if average_completion_time else None`: Python truthiness
    -- also sends a mean of exactly 0.0 to None.
    let avg : Option ℚ :=
      if cwt.isEmpty then none
      else if meanCompletionHours cwt = 0 then none
      else some (round2 (meanCompletionHours cwt))
    ⟨total_tasks, completed_tasks, round2 completion_rate, overdue_tasks,
      some by_priority, some by_status, avg⟩

structure HabitMetrics where
  total_habits : ℕ
  active_habits : ℕ
  total_completions : ℤ
  average_streak : ℚ
  best_streak : ℤ
  consistency_rate : ℚ
  deriving DecidableEq, Repr

def get_habit_metrics (habits : List HabitRec) (logs : List LogRec) (s e : ℤ) :
    HabitMetrics :=
  if habits.isEmpty then
    ⟨0, 0, 0, 0, 0, 0⟩
  else
    let habit_logs := logs.filter (fun l =>
      decide (s ≤ l.completed_date) && decide (l.completed_date ≤ e))
    let total_habits := habits.length
    let active_habits := (habits.filter (fun h => decide (0 < h.current_streak))).length
    let total_completions := (habit_logs.map (fun l => l.count)).foldr (· + ·) 0
    let average_streak :=
      ((habits.map (fun h => (h.current_streak : ℚ))).foldr (· + ·) 0)
        / (habits.length : ℚ)
    let best_streak :=
      match habits.map (fun h => h.longest_streak) with
      | [] => 0
      | x :: xs => xs.foldl max x
    let period_days : ℤ := (e - s) + 1
    let days_with := ((habit_logs.map (fun l => l.completed_date)).dedup).length
    let consistency_rate : ℚ :=
      if 0 < period_days then (days_with : ℚ) / (period_days : ℚ) * 100 else 0
    ⟨total_habits, active_habits, total_completions, round2 average_streak,
      best_streak, round2 consistency_rate⟩

/-- The `_calculate_productivity_score` output (the emoji description string is
a pure function of the score and is not modelled). -/
structure Score where
  overall_score : ℚ
  task_score : ℚ
  habit_score : ℚ
  grade : String
  deriving DecidableEq, Repr

def calculate_productivity_score (tm : TaskMetrics) (hm : HabitMetrics) : Score :=
  let task_score := min (tm.completion_rate * (1 / 2)) 50
  let habit_score := min (hm.consistency_rate * (1 / 2)) 50
  let overall_score := task_score + habit_score
  let grade :=
    if 90 ≤ overall_score then "A+"
    else if 80 ≤ overall_score then "A"
    else if 70 ≤ overall_score then "B"
    else if 60 ≤ overall_score then "C"
    else "D"
  ⟨round1 overall_score, round1 task_score, round1 habit_score, grade⟩

/-- The recommendation strings of `_generate_recommendations`, one
constructor per message; `overdueCount n` stands for the interpolated
f-string `"You have {n} overdue tasks - prioritize these first"` and
`fallbackPraise` for the closing positive-reinforcement message. -/
inductive Recommendation where
  | lowCompletion
  | overdueCount (n : ℕ)
  | highPriorityFocus
  | startHabits
  | beConsistent
  | buildStreaks
  | fallbackPraise
  deriving DecidableEq, Repr

def generate_recommendations (tm : TaskMetrics) (hm : HabitMetrics) :
    List Recommendation :=
  let r1 : List Recommendation :=
    if tm.completion_rate < 70 then [Recommendation.lowCompletion] else []
  let r2 :=
    if 0 < tm.overdue_tasks then r1 ++ [Recommendation.overdueCount tm.overdue_tasks]
    else r1
  let high_priority_rate : ℚ :=
    match tm.by_priority with
    | none => 0
    | some f => (f TaskPriority.high).completion_rate
  let r3 :=
    if high_priority_rate < 80 then r2 ++ [Recommendation.highPriorityFocus] else r2
  let r4 :=
    if hm.active_habits = 0 then r3 ++ [Recommendation.startHabits]
    else if hm.consistency_rate < 50 then r3 ++ [Recommendation.beConsistent]
    else r3
  let r5 :=
    if hm.average_streak < 7 then r4 ++ [Recommendation.buildStreaks] else r4
  let r6 := if r5.isEmpty then [Recommendation.fallbackPraise] else r5
  r6.take 5

/-! ### Characterisation of the current-streak loop -/

theorem currentStreakLoop_le_iff (dates : Finset ℤ) :
    ∀ (fuel : ℕ) (current : ℤ), (dates.filter (fun x => x ≤ current)).card < fuel →
      ∀ n : ℕ, (n ≤ currentStreakLoop dates fuel current ↔
        ∀ k : ℕ, k < n → current - (k : ℤ) ∈ dates) := by
  intro fuel
  induction fuel with
  | zero => intro current h; exact absurd h (Nat.not_lt_zero _)
  | succ fuel ih =>
    intro current hcard n
    by_cases hc : current ∈ dates
    · have hstep : (dates.filter (fun x => x ≤ current - 1)).card < fuel := by
        have hsub : dates.filter (fun x => x ≤ current - 1) ⊆
            dates.filter (fun x => x ≤ current) := by
          intro x hx
          simp only [Finset.mem_filter] at hx ⊢
          exact ⟨hx.1, by omega⟩
        have hmemf : current ∈ dates.filter (fun x => x ≤ current) := by
          simp [Finset.mem_filter, hc]
        have hnot : current ∉ dates.filter (fun x => x ≤ current - 1) := by
          simp only [Finset.mem_filter]
          rintro ⟨-, hle⟩
          omega
        have hss : dates.filter (fun x => x ≤ current - 1) ⊂
            dates.filter (fun x => x ≤ current) :=
          ⟨hsub, fun hall => hnot (hall hmemf)⟩
        have := Finset.card_lt_card hss
        omega
      have hunf : currentStreakLoop dates (fuel + 1) current =
          currentStreakLoop dates fuel (current - 1) + 1 := by
        simp [currentStreakLoop, hc]
      rw [hunf]
      cases n with
      | zero => simp
      | succ m =>
        rw [Nat.succ_le_succ_iff, ih (current - 1) hstep m]
        constructor
        · intro h k hk
          cases k with
          | zero => simpa using hc
          | succ j =>
            have hj := h j (by omega)
            have heq : current - ((j + 1 : ℕ) : ℤ) = (current - 1) - (j : ℤ) := by
              push_cast; ring
            rw [heq]
            exact hj
        · intro h k hk
          have hk1 := h (k + 1) (by omega)
          have heq : (current - 1) - (k : ℤ) = current - ((k + 1 : ℕ) : ℤ) := by
            push_cast; ring
          rw [heq]
          exact hk1
    · have hunf : currentStreakLoop dates (fuel + 1) current = 0 := by
        simp [currentStreakLoop, hc]
      rw [hunf]
      constructor
      · intro h k hk
        exact absurd hk (by omega)
      · intro h
        by_contra hlt
        have h0 := h 0 (by omega)
        simp only [Nat.cast_zero, sub_zero] at h0
        exact hc h0

theorem currentStreak_le_iff (dates : Finset ℤ) (today : ℤ) (n : ℕ) :
    n ≤ currentStreak dates today ↔ ∀ k : ℕ, k < n → today - (k : ℤ) ∈ dates := by
  refine currentStreakLoop_le_iff dates (dates.card + 1) today ?_ n
  have := Finset.card_filter_le dates (fun x => x ≤ today)
  omega

theorem currentStreak_of_not_mem (dates : Finset ℤ) (today : ℤ) (h : today ∉ dates) :
    currentStreak dates today = 0 := by
  by_contra h0
  have h1 : 1 ≤ currentStreak dates today := by omega
  have := (currentStreak_le_iff dates today 1).mp h1 0 (by omega)
  simp only [Nat.cast_zero, sub_zero] at this
  exact h this

theorem nat_eq_of_le_iff {a b : ℕ} (h : ∀ n, n ≤ a ↔ n ≤ b) : a = b :=
  le_antisymm ((h a).mp le_rfl) ((h b).mpr le_rfl)

theorem currentStreak_of_mem (dates : Finset ℤ) (c : ℤ) (hc : c ∈ dates) :
    currentStreak dates c = currentStreak dates (c - 1) + 1 := by
  apply nat_eq_of_le_iff
  intro n
  cases n with
  | zero => simp
  | succ m =>
    rw [currentStreak_le_iff, Nat.succ_le_succ_iff, currentStreak_le_iff]
    constructor
    · intro h k hk
      have hk1 := h (k + 1) (by omega)
      have heq : (c - 1) - (k : ℤ) = c - ((k + 1 : ℕ) : ℤ) := by push_cast; ring
      rw [heq]
      exact hk1
    · intro h k hk
      cases k with
      | zero => simpa using hc
      | succ j =>
        have hj := h j (by omega)
        have heq : c - ((j + 1 : ℕ) : ℤ) = (c - 1) - (j : ℤ) := by push_cast; ring
        rw [heq]
        exact hj

theorem currentStreak_pos_of_mem (dates : Finset ℤ) (c : ℤ) (hc : c ∈ dates) :
    1 ≤ currentStreak dates c := by
  rw [currentStreak_le_iff]
  intro k hk
  have : k = 0 := by omega
  subst this
  simpa using hc

/-! ### Characterisation of the longest-streak scan

Over a strictly sorted list whose tail covers all elements of the ambient
set above the head, `runsMax` computes the maximum over the listed dates
`x` of the length of the run of consecutive dates ending at `x`, i.e. of
`currentStreak S x`. -/

theorem streakScan_eq_max (rest : List ℤ) : ∀ (prev : ℤ) (temp longest : ℕ),
    streakScan prev temp longest rest = max longest (runsMax prev temp rest) := by
  induction rest with
  | nil => intro prev temp longest; simp [streakScan, runsMax]
  | cons c rest ih =>
    intro prev temp longest
    by_cases h : c - prev = 1
    · simp only [streakScan, runsMax, if_pos h]
      exact ih c (temp + 1) longest
    · simp only [streakScan, runsMax, if_neg h]
      rw [ih c 1 (max longest temp), max_assoc]

theorem le_foldr_max {α : Type} (f : α → ℕ) (l : List α) (x : α) (hx : x ∈ l) :
    f x ≤ (l.map f).foldr max 0 := by
  induction l with
  | nil => cases hx
  | cons a l ih =>
    rcases List.mem_cons.mp hx with h | h
    · subst h; exact le_max_left _ _
    · exact le_trans (ih h) (le_max_right _ _)

theorem foldr_max_le_iff {α : Type} (f : α → ℕ) (l : List α) (n : ℕ) :
    n ≤ (l.map f).foldr max 0 ↔ n = 0 ∨ ∃ x ∈ l, n ≤ f x := by
  induction l with
  | nil => simp [Nat.le_zero]
  | cons a l ih =>
    simp only [List.map_cons, List.foldr_cons, le_max_iff, ih, List.mem_cons]
    constructor
    · rintro (h | h | ⟨x, hx, hfx⟩)
      · exact Or.inr ⟨a, Or.inl rfl, h⟩
      · exact Or.inl h
      · exact Or.inr ⟨x, Or.inr hx, hfx⟩
    · rintro (h | ⟨x, hx | hx, hfx⟩)
      · exact Or.inr (Or.inl h)
      · subst hx; exact Or.inl hfx
      · exact Or.inr (Or.inr ⟨x, hx, hfx⟩)

theorem runsMax_eq (S : Finset ℤ) (rest : List ℤ) : ∀ (prev : ℤ),
    List.Sorted (· < ·) (prev :: rest) →
    (∀ x ∈ rest, x ∈ S) →
    (∀ x ∈ S, prev < x → x ∈ rest) →
    runsMax prev (currentStreak S prev) rest
      = ((prev :: rest).map (fun x => currentStreak S x)).foldr max 0 := by
  induction rest with
  | nil =>
    intro prev _ _ _
    simp [runsMax]
  | cons c rest ih =>
    intro prev hsort hmem hcov
    rw [List.sorted_cons] at hsort
    have hpc : prev < c := hsort.1 c (List.mem_cons_self c rest)
    have hsort2 := hsort.2
    have hcS : c ∈ S := hmem c (List.mem_cons_self c rest)
    have hmem2 : ∀ x ∈ rest, x ∈ S := fun x hx => hmem x (List.mem_cons_of_mem c hx)
    have hcov2 : ∀ x ∈ S, c < x → x ∈ rest := by
      intro x hxS hcx
      rcases List.mem_cons.mp (hcov x hxS (lt_trans hpc hcx)) with h | h
      · exact absurd h (by omega)
      · exact h
    by_cases h : c - prev = 1
    · -- consecutive: the run extends, and csC S c = csC S prev + 1
      have hc1 : c - 1 = prev := by omega
      have hsucc : currentStreak S c = currentStreak S prev + 1 := by
        rw [currentStreak_of_mem S c hcS, hc1]
      simp only [runsMax, if_pos h]
      rw [← hsucc]
      rw [ih c hsort2 hmem2 hcov2]
      -- RHS: max (csC prev) (foldr over c :: rest) collapses since csC c is larger
      have hle : currentStreak S prev ≤
          (((c :: rest).map (fun x => currentStreak S x)).foldr max 0) := by
        have h1 : currentStreak S c ≤
            (((c :: rest).map (fun x => currentStreak S x)).foldr max 0) :=
          le_foldr_max _ _ c (List.mem_cons_self c rest)
        omega
      conv_rhs => rw [List.map_cons, List.foldr_cons]
      exact (max_eq_right hle).symm
    · -- gap: c - 1 is not in S, so the run at c restarts at length 1
      have hgap : c - 1 ∉ S := by
        intro hmem1
        rcases lt_or_le prev (c - 1) with hlt | hle
        · rcases List.mem_cons.mp (hcov (c - 1) hmem1 hlt) with heq | hm
          · omega
          · have := (List.sorted_cons.mp hsort2).1 (c - 1) hm
            omega
        · omega
      have hone : currentStreak S c = 1 := by
        rw [currentStreak_of_mem S c hcS, currentStreak_of_not_mem S (c - 1) hgap]
      simp only [runsMax, if_neg h]
      rw [show (1 : ℕ) = currentStreak S c from hone.symm]
      rw [ih c hsort2 hmem2 hcov2]
      simp only [List.map_cons, List.foldr_cons]

theorem longestStreak_le_iff (dates : Finset ℤ) (n : ℕ) :
    n ≤ longestStreak dates ↔ n = 0 ∨ ∃ x ∈ dates, n ≤ currentStreak dates x := by
  rcases h : dates.sort (· ≤ ·) with - | ⟨d, rest⟩
  · have hL : longestStreak dates = 0 := by
      simp [longestStreak, h]
    have hempty : ∀ x : ℤ, x ∉ dates := by
      intro x hx
      have : x ∈ dates.sort (· ≤ ·) := Finset.mem_sort (· ≤ ·) |>.mpr hx
      rw [h] at this
      cases this
    rw [hL]
    constructor
    · intro hn; left; omega
    · rintro (hn | ⟨x, hx, -⟩)
      · omega
      · exact absurd hx (hempty x)
  · have hsortlt : List.Sorted (· < ·) (d :: rest) := by
      have := Finset.sort_sorted_lt dates
      rw [h] at this
      exact this
    have hmemlist : ∀ x, x ∈ d :: rest ↔ x ∈ dates := by
      intro x
      rw [← h]
      exact Finset.mem_sort (· ≤ ·)
    have hdS : d ∈ dates := (hmemlist d).mp (List.mem_cons_self d rest)
    have hd1 : d - 1 ∉ dates := by
      intro hmem1
      rcases List.mem_cons.mp ((hmemlist (d - 1)).mpr hmem1) with heq | hmem2
      · omega
      · have := (List.sorted_cons.mp hsortlt).1 (d - 1) hmem2
        omega
    have hone : currentStreak dates d = 1 := by
      rw [currentStreak_of_mem dates d hdS, currentStreak_of_not_mem dates (d - 1) hd1]
    have hL : longestStreak dates =
        ((d :: rest).map (fun x => currentStreak dates x)).foldr max 0 := by
      have h0 : longestStreak dates = streakScan d 1 0 rest := by
        simp [longestStreak, h]
      rw [h0, streakScan_eq_max]
      rw [show (1 : ℕ) = currentStreak dates d from hone.symm]
      rw [runsMax_eq dates rest d hsortlt
        (fun x hx => (hmemlist x).mp (List.mem_cons_of_mem d hx))
        (fun x hxS hdx => by
          rcases List.mem_cons.mp ((hmemlist x).mpr hxS) with heq | hm
          · omega
          · exact hm)]
      simp
    rw [hL, foldr_max_le_iff]
    constructor
    · rintro (h0 | ⟨x, hx, hfx⟩)
      · exact Or.inl h0
      · exact Or.inr ⟨x, (hmemlist x).mp hx, hfx⟩
    · rintro (h0 | ⟨x, hx, hfx⟩)
      · exact Or.inl h0
      · exact Or.inr ⟨x, (hmemlist x).mpr hx, hfx⟩

theorem longestStreak_empty : longestStreak (∅ : Finset ℤ) = 0 := by
  simp [longestStreak, Finset.sort_empty]

theorem currentStreak_le_longestStreak (dates : Finset ℤ) (today : ℤ) :
    currentStreak dates today ≤ longestStreak dates := by
  rcases Nat.eq_zero_or_pos (currentStreak dates today) with h0 | hpos
  · rw [h0]; exact Nat.zero_le _
  · have hmem : today ∈ dates := by
      have := (currentStreak_le_iff dates today 1).mp (by omega) 0 (by omega)
      simpa using this
    exact (longestStreak_le_iff dates _).mpr (Or.inr ⟨today, hmem, le_rfl⟩)

theorem exists_mem_run_iff (dates : Finset ℤ) (n : ℕ) (hn : n ≠ 0) :
    (∃ x ∈ dates, n ≤ currentStreak dates x) ↔
      ∃ d : ℤ, ∀ k : ℕ, k < n → d + (k : ℤ) ∈ dates := by
  constructor
  · rintro ⟨x, hx, hle⟩
    refine ⟨x - ((n - 1 : ℕ) : ℤ), ?_⟩
    intro k hk
    have hmem := (currentStreak_le_iff dates x n).mp hle (n - 1 - k) (by omega)
    have heq : x - ((n - 1 : ℕ) : ℤ) + (k : ℤ) = x - ((n - 1 - k : ℕ) : ℤ) := by omega
    rw [heq]
    exact hmem
  · rintro ⟨d, hd⟩
    refine ⟨d + ((n - 1 : ℕ) : ℤ), hd (n - 1) (by omega), ?_⟩
    rw [currentStreak_le_iff]
    intro k hk
    have hmem := hd (n - 1 - k) (by omega)
    have heq : d + ((n - 1 : ℕ) : ℤ) - (k : ℤ) = d + ((n - 1 - k : ℕ) : ℤ) := by omega
    rw [heq]
    exact hmem

/-! ## Claim C1: current streak -/

/-- C1: for every finite completion-date set and every `today`, the
recomputed `current_streak` is the walk-backward count, which equals the
number of consecutive calendar days ending at (and including) `today` that
all lie in the set (characterised by: `n` is at most the streak iff the `n`
days `today, today-1, …, today-n+1` are all present), and is 0 whenever
`today` itself is absent — regardless of the latest logged date. -/
theorem recompute_current_streak_spec (h : HabitRec) (dates : Finset ℤ) (today : ℤ) :
    (recomputeStreaks h dates today).current_streak = (currentStreak dates today : ℤ)
    ∧ (∀ n : ℕ, n ≤ currentStreak dates today ↔
        ∀ k : ℕ, k < n → today - (k : ℤ) ∈ dates)
    ∧ (today ∉ dates → currentStreak dates today = 0) := by
  refine ⟨?_, fun n => currentStreak_le_iff dates today n,
    currentStreak_of_not_mem dates today⟩
  unfold recomputeStreaks
  split_ifs with hd
  · subst hd
    rw [currentStreak_of_not_mem ∅ today (Finset.not_mem_empty today)]
    simp
  · rfl

theorem recompute_current_streak_spec_witness :
    ((5 : ℤ) ∉ ({1} : Finset ℤ)) ∧ currentStreak ({1} : Finset ℤ) 5 = 0 :=
  ⟨by decide, (recompute_current_streak_spec ⟨"habit", 0, 0⟩ {1} 5).2.2 (by decide)⟩

/-! ## Claim C2: longest streak -/

/-- C2: the freshly computed longest streak (ascending sort + adjacent-gap
scan) equals the length of the longest run of consecutive calendar days
contained in the set: `n` is at most the result iff `n = 0` or some `n`
consecutive days all lie in the set; and an empty set yields 0. -/
theorem longest_streak_spec (dates : Finset ℤ) :
    (∀ n : ℕ, n ≤ longestStreak dates ↔
      (n = 0 ∨ ∃ d : ℤ, ∀ k : ℕ, k < n → d + (k : ℤ) ∈ dates))
    ∧ (dates = ∅ → longestStreak dates = 0) := by
  constructor
  · intro n
    rcases Nat.eq_zero_or_pos n with h0 | hpos
    · subst h0; simp
    · rw [longestStreak_le_iff dates n, exists_mem_run_iff dates n (by omega)]
  · intro h
    subst h
    exact longestStreak_empty

theorem longest_streak_spec_witness : longestStreak (∅ : Finset ℤ) = 0 :=
  (longest_streak_spec ∅).2 rfl

/-! ## Claim C4: counter invariants -/

/-- C4: if a habit's stored counters are non-negative with
`longest_streak ≥ current_streak`, then after any recomputation the updated
habit satisfies `longest_streak ≥ current_streak ≥ 0`. -/
theorem streak_counters_invariant (h : HabitRec) (dates : Finset ℤ) (today : ℤ)
    (h1 : 0 ≤ h.current_streak) (h2 : 0 ≤ h.longest_streak)
    (h3 : h.current_streak ≤ h.longest_streak) :
    0 ≤ (recomputeStreaks h dates today).current_streak ∧
    (recomputeStreaks h dates today).current_streak ≤
      (recomputeStreaks h dates today).longest_streak := by
  unfold recomputeStreaks
  split_ifs with hd
  · exact ⟨le_refl 0, le_refl 0⟩
  · refine ⟨Int.ofNat_nonneg _, ?_⟩
    have hle : currentStreak dates today ≤ longestStreak dates :=
      currentStreak_le_longestStreak dates today
    have : ((currentStreak dates today : ℕ) : ℤ) ≤ ((longestStreak dates : ℕ) : ℤ) := by
      exact_mod_cast hle
    exact le_trans this (le_max_right _ _)

theorem streak_counters_invariant_witness :
    ((0 : ℤ) ≤ 0 ∧ (0 : ℤ) ≤ 0 ∧ (0 : ℤ) ≤ 0) ∧
    (0 ≤ (recomputeStreaks ⟨"habit", 0, 0⟩ (∅ : Finset ℤ) 3).current_streak ∧
      (recomputeStreaks ⟨"habit", 0, 0⟩ (∅ : Finset ℤ) 3).current_streak ≤
        (recomputeStreaks ⟨"habit", 0, 0⟩ (∅ : Finset ℤ) 3).longest_streak) :=
  ⟨⟨by decide, by decide, by decide⟩,
    streak_counters_invariant ⟨"habit", 0, 0⟩ ∅ 3 (by decide) (by decide) (by decide)⟩

/-! ## Supporting lemmas for the habit-service state layer -/

theorem replaceFirstLog_proj (logs : List LogRec) (ld : LogCreate) :
    (replaceFirstLog logs ld).map (fun l => (l.habit_id, l.completed_date))
      = logs.map (fun l => (l.habit_id, l.completed_date)) := by
  induction logs with
  | nil => rfl
  | cons l rest ih =>
    by_cases h : logMatches l ld.habit_id ld.completed_date
    · simp [replaceFirstLog, h]
    · simp [replaceFirstLog, h, ih]

theorem replaceFirstLog_length (logs : List LogRec) (ld : LogCreate) :
    (replaceFirstLog logs ld).length = logs.length := by
  have h := congrArg List.length (replaceFirstLog_proj logs ld)
  simpa using h

theorem habitDates_filter_map (logs : List LogRec) (hid : String) :
    (logs.filter (fun l => l.habit_id == hid)).map (fun l => l.completed_date)
      = ((logs.map (fun l => (l.habit_id, l.completed_date))).filter
          (fun p => p.1 == hid)).map (fun p => p.2) := by
  induction logs with
  | nil => rfl
  | cons l rest ih =>
    by_cases h : l.habit_id == hid
    · simp [List.filter_cons, h, ih]
    · simp [List.filter_cons, h, ih]

theorem habitDates_congr (logs logs' : List LogRec) (hid : String)
    (h : logs.map (fun l => (l.habit_id, l.completed_date))
       = logs'.map (fun l => (l.habit_id, l.completed_date))) :
    habitDates logs hid = habitDates logs' hid := by
  unfold habitDates
  rw [habitDates_filter_map, habitDates_filter_map, h]

theorem mem_habitDates (logs : List LogRec) (hid : String) (x : ℤ) :
    x ∈ habitDates logs hid ↔ ∃ l ∈ logs, l.habit_id = hid ∧ l.completed_date = x := by
  unfold habitDates
  simp only [List.mem_toFinset, List.mem_map, List.mem_filter, beq_iff_eq]
  constructor
  · rintro ⟨l, ⟨hl, hid'⟩, hd⟩
    exact ⟨l, hl, hid', hd⟩
  · rintro ⟨l, hl, hid', hd⟩
    exact ⟨l, ⟨hl, hid'⟩, hd⟩

theorem find?_replaceFirstLog (logs : List LogRec) (ld : LogCreate)
    (h : (logs.find? (fun l => logMatches l ld.habit_id ld.completed_date)).isSome) :
    ∃ e, (replaceFirstLog logs ld).find?
        (fun l => logMatches l ld.habit_id ld.completed_date) = some e
      ∧ e.count = ld.count ∧ e.notes = ld.notes
      ∧ e.habit_id = ld.habit_id ∧ e.completed_date = ld.completed_date := by
  induction logs with
  | nil => simp at h
  | cons l rest ih =>
    by_cases hm : logMatches l ld.habit_id ld.completed_date
    · have hm' : logMatches { l with count := ld.count, notes := ld.notes }
          ld.habit_id ld.completed_date = true := hm
      have hid : l.habit_id = ld.habit_id := by
        have := hm
        simp only [logMatches, Bool.and_eq_true, beq_iff_eq] at this
        exact this.1
      have hdt : l.completed_date = ld.completed_date := by
        have := hm
        simp only [logMatches, Bool.and_eq_true, beq_iff_eq] at this
        exact this.2
      refine ⟨{ l with count := ld.count, notes := ld.notes }, ?_, rfl, rfl, hid, hdt⟩
      simp only [replaceFirstLog, if_pos hm]
      rw [List.find?_cons, hm']
    · have hmf : logMatches l ld.habit_id ld.completed_date = false :=
        Bool.eq_false_iff.mpr hm
      simp only [replaceFirstLog, if_neg hm]
      rw [List.find?_cons, hmf] at h
      obtain ⟨e, he, h1, h2, h3, h4⟩ := ih h
      exact ⟨e, by rw [List.find?_cons, hmf]; exact he, h1, h2, h3, h4⟩

theorem find?_append_of_none {α : Type} (p : α → Bool) (l1 l2 : List α)
    (h : l1.find? p = none) : (l1 ++ l2).find? p = l2.find? p := by
  induction l1 with
  | nil => rfl
  | cons a l1 ih =>
    by_cases ha : p a
    · rw [List.find?_cons_of_pos _ ha] at h; cases h
    · rw [List.find?_cons_of_neg _ ha] at h
      rw [List.cons_append, List.find?_cons_of_neg _ ha]
      exact ih h

theorem logMatches_mkLog (ld : LogCreate) :
    logMatches (mkLog ld) ld.habit_id ld.completed_date = true := by
  simp [logMatches, mkLog]

theorem recomputeStreaks_id (h : HabitRec) (dates : Finset ℤ) (today : ℤ) :
    (recomputeStreaks h dates today).id = h.id := by
  unfold recomputeStreaks
  split_ifs <;> rfl

theorem recomputeStreaks_idem (h : HabitRec) (dates : Finset ℤ) (today : ℤ) :
    recomputeStreaks (recomputeStreaks h dates today) dates today
      = recomputeStreaks h dates today := by
  cases h with
  | mk hid cs ls =>
    unfold recomputeStreaks
    split_ifs with hd
    · rfl
    · simp only [HabitRec.mk.injEq, true_and]
      rw [max_assoc, max_self]

theorem find?_congr {α : Type} (l : List α) (p q : α → Bool) (h : ∀ a, p a = q a) :
    l.find? p = l.find? q := by
  have hpq : p = q := funext h
  rw [hpq]

theorem find?_habits_map (l : List HabitRec) (g : HabitRec → HabitRec) (hid : String)
    (hg : ∀ h, (g h).id = h.id) :
    (l.map g).find? (fun h => h.id == hid)
      = (l.find? (fun h => h.id == hid)).map g := by
  rw [List.find?_map]
  congr 1
  apply find?_congr
  intro a
  simp [Function.comp, hg a]

theorem upsertLogs_match_isSome (logs : List LogRec) (ld : LogCreate) :
    ((upsertLogs logs ld).find?
      (fun l => logMatches l ld.habit_id ld.completed_date)).isSome := by
  unfold upsertLogs
  rcases hf : logs.find? (fun l => logMatches l ld.habit_id ld.completed_date) with - | e
  · rw [find?_append_of_none _ _ _ hf]
    rw [List.find?_cons, logMatches_mkLog]
    rfl
  · obtain ⟨e', he', -, -, -, -⟩ :=
      find?_replaceFirstLog logs ld (by rw [hf]; rfl)
    rw [he']
    rfl

theorem mem_habitDates_upsertLogs (logs : List LogRec) (ld : LogCreate) :
    ld.completed_date ∈ habitDates (upsertLogs logs ld) ld.habit_id := by
  unfold upsertLogs
  rcases hf : logs.find? (fun l => logMatches l ld.habit_id ld.completed_date) with - | e
  · rw [mem_habitDates]
    exact ⟨mkLog ld, List.mem_append_right logs (List.mem_cons_self _ _), rfl, rfl⟩
  · obtain ⟨e', he', -, -, h3, h4⟩ :=
      find?_replaceFirstLog logs ld (by rw [hf]; rfl)
    rw [mem_habitDates]
    exact ⟨e', List.mem_of_find?_eq_some he', h3, h4⟩

theorem log_habit_completion_found (db : DB) (ld : LogCreate) (today : ℤ)
    (h0 : HabitRec) (hfind : db.habits.find? (fun h => h.id == ld.habit_id) = some h0) :
    log_habit_completion db ld today =
      (some (mkLog ld),
        update_habit_streaks { db with logs := upsertLogs db.logs ld }
          ld.habit_id today) := by
  unfold log_habit_completion
  rw [hfind]

theorem log_habit_completion_not_found (db : DB) (ld : LogCreate) (today : ℤ)
    (hfind : db.habits.find? (fun h => h.id == ld.habit_id) = none) :
    log_habit_completion db ld today = (none, db) := by
  unfold log_habit_completion
  rw [hfind]

/-! ## Claim C10: logging against a missing habit -/

/-- C10: when `habit_id` matches no existing habit, `log_habit_completion`
returns `None` and leaves the whole state unchanged — no log row is created
or updated and no habit's streak counters move. -/
theorem log_completion_missing_habit (db : DB) (ld : LogCreate) (today : ℤ)
    (h : ∀ hrec ∈ db.habits, hrec.id ≠ ld.habit_id) :
    log_habit_completion db ld today = (none, db) := by
  apply log_habit_completion_not_found
  rw [List.find?_eq_none]
  intro x hx
  simp only [beq_iff_eq]
  exact h x hx

theorem log_completion_missing_habit_witness :
    (∀ hrec ∈ (DB.mk [⟨"a", 0, 0⟩] []).habits, hrec.id ≠ "b") ∧
    log_habit_completion (DB.mk [⟨"a", 0, 0⟩] []) ⟨"b", 0, 1, none⟩ 0
      = (none, DB.mk [⟨"a", 0, 0⟩] []) :=
  ⟨by decide, log_completion_missing_habit (DB.mk [⟨"a", 0, 0⟩] []) ⟨"b", 0, 1, none⟩ 0
    (by decide)⟩

/-! ## Claim C3: monotonicity of the stored longest streak -/

/-- C3 counterexample: a recomputation over an *empty* date set (all logs
removed) resets the stored `longest_streak` to 0 instead of keeping
`max(previous, fresh) = max(5, 0) = 5`, so the claim as stated fails. -/
theorem longest_streak_reset_on_empty_cex :
    (recomputeStreaks ⟨"habit-1", 3, 5⟩ (∅ : Finset ℤ) 0).longest_streak = 0 ∧
    max ((⟨"habit-1", 3, 5⟩ : HabitRec).longest_streak)
        ((longestStreak (∅ : Finset ℤ) : ℕ) : ℤ) = 5 ∧
    ¬ ((recomputeStreaks ⟨"habit-1", 3, 5⟩ (∅ : Finset ℤ) 0).longest_streak
        = max ((⟨"habit-1", 3, 5⟩ : HabitRec).longest_streak)
            ((longestStreak (∅ : Finset ℤ) : ℕ) : ℤ)) := by
  refine ⟨by decide, ?_, ?_⟩
  · rw [longestStreak_empty]; decide
  · rw [longestStreak_empty]; decide

/-- C3 amended: over a *nonempty* completion-date set the persisted
`longest_streak` equals the maximum of its previous stored value and the
freshly computed longest streak (hence never decreases); and across every
`log_habit_completion` operation — whose recomputation always sees the
just-upserted date, hence a nonempty set — every habit keeps its id and its
stored `longest_streak` never decreases.  (Over an empty set the code
resets both counters to 0.) -/
theorem longest_streak_monotone_amended :
    (∀ (h : HabitRec) (dates : Finset ℤ) (today : ℤ), dates ≠ ∅ →
      (recomputeStreaks h dates today).longest_streak
          = max h.longest_streak ((longestStreak dates : ℕ) : ℤ) ∧
        h.longest_streak ≤ (recomputeStreaks h dates today).longest_streak) ∧
    (∀ (db : DB) (ld : LogCreate) (today : ℤ),
      List.Forall₂ (fun a b => a.id = b.id ∧ a.longest_streak ≤ b.longest_streak)
        db.habits ((log_habit_completion db ld today).2).habits) := by
  constructor
  · intro h dates today hne
    unfold recomputeStreaks
    rw [if_neg hne]
    exact ⟨rfl, le_max_left _ _⟩
  · intro db ld today
    rcases hf : db.habits.find? (fun h => h.id == ld.habit_id) with - | h0
    · rw [log_habit_completion_not_found db ld today hf]
      exact List.forall₂_same.mpr (fun x _ => ⟨rfl, le_refl _⟩)
    · rw [log_habit_completion_found db ld today h0 hf]
      show List.Forall₂ _ db.habits (db.habits.map _)
      rw [List.forall₂_map_right_iff]
      apply List.forall₂_same.mpr
      intro x hx
      by_cases hxid : x.id == ld.habit_id
      · rw [if_pos hxid]
        have hmem := mem_habitDates_upsertLogs db.logs ld
        have hne : habitDates (upsertLogs db.logs ld) ld.habit_id ≠ ∅ := by
          intro hE
          rw [hE] at hmem
          exact absurd hmem (Finset.not_mem_empty _)
        constructor
        · exact (recomputeStreaks_id _ _ _).symm
        · unfold recomputeStreaks
          rw [if_neg hne]
          exact le_max_left _ _
      · rw [if_neg hxid]
        exact ⟨rfl, le_refl _⟩

theorem longest_streak_monotone_amended_witness :
    (({3} : Finset ℤ) ≠ ∅) ∧
    ((recomputeStreaks ⟨"habit", 0, 2⟩ ({3} : Finset ℤ) 3).longest_streak
        = max ((2 : ℤ)) ((longestStreak ({3} : Finset ℤ) : ℕ) : ℤ) ∧
      (2 : ℤ) ≤ (recomputeStreaks ⟨"habit", 0, 2⟩ ({3} : Finset ℤ) 3).longest_streak) :=
  ⟨by decide, (longest_streak_monotone_amended.1 ⟨"habit", 0, 2⟩ {3} 3 (by decide))⟩

/-! ## Claim C5: re-logging the same date -/

theorem update_habit_streaks_habits (db : DB) (hid : String) (today : ℤ) :
    (update_habit_streaks db hid today).habits
      = db.habits.map (fun h =>
          if h.id == hid then recomputeStreaks h (habitDates db.logs hid) today
          else h) := rfl

theorem update_habit_streaks_logs (db : DB) (hid : String) (today : ℤ) :
    (update_habit_streaks db hid today).logs = db.logs := rfl

/-- C5: logging a completion for a `(habit, completed_date)` pair that
already has a log (here: just logged) updates that log's `count`/`notes` in
place without creating a second row, and leaves the habit table — in
particular both streak counters — exactly as after the first log, for any
`count`/`notes` values. -/
theorem log_completion_upsert_idempotent (db : DB) (ld ld' : LogCreate) (today : ℤ)
    (hidq : ld'.habit_id = ld.habit_id) (hdt : ld'.completed_date = ld.completed_date)
    (hh : (db.habits.find? (fun h => h.id == ld.habit_id)).isSome) :
    ((log_habit_completion ((log_habit_completion db ld today).2) ld' today).2).logs.length
        = ((log_habit_completion db ld today).2).logs.length ∧
    ((log_habit_completion ((log_habit_completion db ld today).2) ld' today).2).habits
        = ((log_habit_completion db ld today).2).habits ∧
    ∃ e, ((log_habit_completion ((log_habit_completion db ld today).2) ld' today).2).logs.find?
          (fun l => logMatches l ld.habit_id ld.completed_date) = some e
        ∧ e.count = ld'.count ∧ e.notes = ld'.notes := by
  obtain ⟨h0, hf0⟩ := Option.isSome_iff_exists.mp hh
  have e1 := log_habit_completion_found db ld today h0 hf0
  -- the state after the first log
  have hlogs1 : ((log_habit_completion db ld today).2).logs = upsertLogs db.logs ld := by
    rw [e1]
    rfl
  have hhabits1 : ((log_habit_completion db ld today).2).habits
      = db.habits.map (fun h =>
          if h.id == ld.habit_id then
            recomputeStreaks h (habitDates (upsertLogs db.logs ld) ld.habit_id) today
          else h) := by
    rw [e1]
    rfl
  have hpred : (fun l => logMatches l ld'.habit_id ld'.completed_date)
      = (fun l => logMatches l ld.habit_id ld.completed_date) := by
    rw [hidq, hdt]
  have hgid : ∀ h : HabitRec,
      ((fun h => if h.id == ld.habit_id then
          recomputeStreaks h (habitDates (upsertLogs db.logs ld) ld.habit_id) today
        else h) h).id = h.id := by
    intro h
    by_cases hc : h.id == ld.habit_id
    · simp only [if_pos hc]
      exact recomputeStreaks_id _ _ _
    · simp only [if_neg hc]
  -- the habit is still found by the second call
  have hfound2 : (((log_habit_completion db ld today).2).habits.find?
      (fun h => h.id == ld'.habit_id)).isSome := by
    rw [hidq, hhabits1, find?_habits_map _ _ _ hgid, hf0]
    rfl
  obtain ⟨h1, hf1⟩ := Option.isSome_iff_exists.mp hfound2
  have e2 := log_habit_completion_found ((log_habit_completion db ld today).2) ld' today h1 hf1
  -- the second upsert finds the existing row and replaces it
  have hmatch1 : (((log_habit_completion db ld today).2).logs.find?
      (fun l => logMatches l ld'.habit_id ld'.completed_date)).isSome := by
    rw [hpred, hlogs1]
    exact upsertLogs_match_isSome db.logs ld
  obtain ⟨efound, hef⟩ := Option.isSome_iff_exists.mp hmatch1
  have hup2 : upsertLogs ((log_habit_completion db ld today).2).logs ld'
      = replaceFirstLog ((log_habit_completion db ld today).2).logs ld' := by
    unfold upsertLogs
    rw [hef]
  -- the replaced list projects to the same (habit_id, date) sequence
  have hD : habitDates (replaceFirstLog ((log_habit_completion db ld today).2).logs ld')
        ld.habit_id
      = habitDates ((log_habit_completion db ld today).2).logs ld.habit_id :=
    habitDates_congr _ _ _ (replaceFirstLog_proj _ ld')
  refine ⟨?_, ?_, ?_⟩
  · -- lengths
    rw [e2]
    show (upsertLogs ((log_habit_completion db ld today).2).logs ld').length
      = ((log_habit_completion db ld today).2).logs.length
    rw [hup2]
    exact replaceFirstLog_length _ _
  · -- habit table unchanged
    rw [e2]
    show (((log_habit_completion db ld today).2).habits.map (fun h =>
        if h.id == ld'.habit_id then
          recomputeStreaks h
            (habitDates (upsertLogs ((log_habit_completion db ld today).2).logs ld')
              ld'.habit_id) today
        else h))
      = ((log_habit_completion db ld today).2).habits
    rw [hup2, hidq, hD, hlogs1, hhabits1, List.map_map]
    apply List.map_congr_left
    intro x hx
    by_cases hc : x.id == ld.habit_id
    · simp only [Function.comp, if_pos hc]
      have hcid : (recomputeStreaks x (habitDates (upsertLogs db.logs ld) ld.habit_id)
          today).id == ld.habit_id := by
        rw [recomputeStreaks_id]
        exact hc
      rw [if_pos hcid]
      exact recomputeStreaks_idem _ _ _
    · simp only [Function.comp, if_neg hc, if_neg hc]
  · -- the stored row carries the second payload's count and notes
    rw [e2]
    show ∃ e, (upsertLogs ((log_habit_completion db ld today).2).logs ld').find?
        (fun l => logMatches l ld.habit_id ld.completed_date) = some e
      ∧ e.count = ld'.count ∧ e.notes = ld'.notes
    rw [hup2]
    have hmatch1' : (((log_habit_completion db ld today).2).logs.find?
        (fun l => logMatches l ld'.habit_id ld'.completed_date)).isSome := hmatch1
    obtain ⟨e, he, hc, hn, -, -⟩ :=
      find?_replaceFirstLog ((log_habit_completion db ld today).2).logs ld' hmatch1'
    rw [hpred] at he
    exact ⟨e, he, hc, hn⟩

theorem log_completion_upsert_idempotent_witness :
    ((("h1" : String) = "h1") ∧ ((2 : ℤ) = 2) ∧
      ((DB.mk [⟨"h1", 0, 0⟩] []).habits.find? (fun h => h.id == "h1")).isSome) ∧
    ((log_habit_completion
        ((log_habit_completion (DB.mk [⟨"h1", 0, 0⟩] []) ⟨"h1", 2, 1, none⟩ 2).2)
        ⟨"h1", 2, 4, some "again"⟩ 2).2).logs.length
      = ((log_habit_completion (DB.mk [⟨"h1", 0, 0⟩] []) ⟨"h1", 2, 1, none⟩ 2).2).logs.length :=
  ⟨⟨rfl, rfl, by decide⟩,
    (log_completion_upsert_idempotent (DB.mk [⟨"h1", 0, 0⟩] [])
      ⟨"h1", 2, 1, none⟩ ⟨"h1", 2, 4, some "again"⟩ 2 rfl rfl (by decide)).1⟩

/-! ## Claim C9: completed_at vs. status -/

/-- C9 counterexample: `create_task` accepts `status = completed` in the
payload but never sets `completed_at`, so right after this creation the
task has `status == completed` with `completed_at` null — the claimed
"non-null iff completed" equivalence fails. -/
theorem completed_at_create_cex :
    (create_task ⟨TaskStatus.completed, TaskPriority.medium, none⟩ 0).status
        = TaskStatus.completed ∧
    (create_task ⟨TaskStatus.completed, TaskPriority.medium, none⟩ 0).completed_at
        = none :=
  ⟨rfl, rfl⟩

/-- C9 amended: every creation leaves `completed_at` null (whatever the
payload status); after an update whose payload carries a status, the task
has that status and `completed_at` is non-null iff it is `completed` — so
update-transitions to `completed` set the timestamp and transitions away
clear it; an update without a status leaves both fields untouched. -/
theorem completed_at_iff_amended :
    (∀ (d : TaskCreate) (now : ℚ), (create_task d now).completed_at = none) ∧
    (∀ (t : Task) (u : TaskUpdate) (now : ℚ) (s : TaskStatus), u.status = some s →
      ((update_task t u now).completed_at ≠ none ↔ s = TaskStatus.completed) ∧
      (update_task t u now).status = s) ∧
    (∀ (t : Task) (u : TaskUpdate) (now : ℚ), u.status = none →
      (update_task t u now).completed_at = t.completed_at ∧
      (update_task t u now).status = t.status) := by
  refine ⟨fun d now => rfl, ?_, ?_⟩
  · intro t u now s hs
    simp only [update_task, hs]
    by_cases hsc : s = TaskStatus.completed
    · subst hsc
      rw [if_pos rfl]
      by_cases hc : t.completed_at = none
      · simp [hc, Option.getD]
      · simp [hc, Option.getD]
    · rw [if_neg (by simpa using hsc)]
      simp [Option.getD, hsc]
  · intro t u now hn
    simp only [update_task, hn]
    rw [if_neg (by simp)]
    simp [Option.getD]

theorem completed_at_iff_amended_witness :
    ((⟨some TaskStatus.completed, none, none⟩ : TaskUpdate).status
        = some TaskStatus.completed) ∧
    (((update_task ⟨TaskStatus.todo, TaskPriority.medium, none, none, some 0⟩
          ⟨some TaskStatus.completed, none, none⟩ 5).completed_at ≠ none ↔
        TaskStatus.completed = TaskStatus.completed) ∧
      (update_task ⟨TaskStatus.todo, TaskPriority.medium, none, none, some 0⟩
          ⟨some TaskStatus.completed, none, none⟩ 5).status = TaskStatus.completed) :=
  ⟨rfl, completed_at_iff_amended.2.1
    ⟨TaskStatus.todo, TaskPriority.medium, none, none, some 0⟩
    ⟨some TaskStatus.completed, none, none⟩ 5 TaskStatus.completed rfl⟩

/-! ## Rounding helpers -/

theorem roundHalfEven_intCast (n : ℤ) : roundHalfEven ((n : ℤ) : ℚ) = n := by
  unfold roundHalfEven
  have hf : Rat.floor ((n : ℤ) : ℚ) = n := by
    simp [Rat.floor]
  rw [hf]
  norm_num

theorem round2_intCast (n : ℤ) : round2 ((n : ℤ) : ℚ) = (n : ℚ) := by
  unfold round2
  have h : ((n : ℤ) : ℚ) * 100 = ((n * 100 : ℤ) : ℚ) := by push_cast; ring
  rw [h, roundHalfEven_intCast]
  push_cast
  ring_nf

theorem round1_intCast (n : ℤ) : round1 ((n : ℤ) : ℚ) = (n : ℚ) := by
  unfold round1
  have h : ((n : ℤ) : ℚ) * 10 = ((n * 10 : ℤ) : ℚ) := by push_cast; ring
  rw [h, roundHalfEven_intCast]
  push_cast
  ring_nf

theorem round2_zero : round2 0 = 0 := by
  have := round2_intCast 0
  simpa using this

theorem round1_zero : round1 0 = 0 := by
  have := round1_intCast 0
  simpa using this

theorem round2_hundred : round2 100 = 100 := by
  have := round2_intCast 100
  simpa using this

theorem round1_fifty : round1 50 = 50 := by
  have := round1_intCast 50
  simpa using this

/-! ## Claim C7: overview of an empty window -/

/-- C7 counterexample: with zero tasks and zero habits the recommendations
list is non-empty but consists of four threshold-rule messages — the
fallback encouragement message is not among them, so the overview does
*not* return "the fallback encouragement message". -/
theorem empty_overview_recs_cex :
    generate_recommendations (get_task_metrics [] 0 6 0) (get_habit_metrics [] [] 0 6)
        = [Recommendation.lowCompletion, Recommendation.highPriorityFocus,
           Recommendation.startHabits, Recommendation.buildStreaks] ∧
    Recommendation.fallbackPraise ∉
      generate_recommendations (get_task_metrics [] 0 6 0) (get_habit_metrics [] [] 0 6) := by
  have ht : get_task_metrics [] 0 6 0 = ⟨0, 0, 0, 0, none, none, none⟩ := rfl
  have hh : get_habit_metrics [] [] 0 6 = ⟨0, 0, 0, 0, 0, 0⟩ := rfl
  rw [ht, hh]
  exact ⟨by decide, by decide⟩

/-- C7 amended: the overview over a window with zero tasks and zero habits
is well-formed: `completion_rate = 0`, `consistency_rate = 0`,
`overall_score = 0`, `grade = "D"`, and a non-empty recommendations list —
consisting of the four threshold-rule suggestions (low completion rate,
high-priority focus, start a habit, build longer streaks), not of the
fallback encouragement message. -/
theorem empty_overview_amended (s e : ℤ) (now : ℚ) :
    (get_task_metrics [] s e now).completion_rate = 0 ∧
    (get_habit_metrics [] [] s e).consistency_rate = 0 ∧
    (calculate_productivity_score (get_task_metrics [] s e now)
        (get_habit_metrics [] [] s e)).overall_score = 0 ∧
    (calculate_productivity_score (get_task_metrics [] s e now)
        (get_habit_metrics [] [] s e)).grade = "D" ∧
    generate_recommendations (get_task_metrics [] s e now) (get_habit_metrics [] [] s e)
        = [Recommendation.lowCompletion, Recommendation.highPriorityFocus,
           Recommendation.startHabits, Recommendation.buildStreaks] ∧
    generate_recommendations (get_task_metrics [] s e now)
        (get_habit_metrics [] [] s e) ≠ [] := by
  have ht : get_task_metrics [] s e now = ⟨0, 0, 0, 0, none, none, none⟩ := rfl
  have hh : get_habit_metrics [] [] s e = ⟨0, 0, 0, 0, 0, 0⟩ := rfl
  rw [ht, hh]
  refine ⟨rfl, rfl, ?_, ?_, by decide, by decide⟩
  · show round1 (min ((0 : ℚ) * (1 / 2)) 50 + min ((0 : ℚ) * (1 / 2)) 50) = 0
    norm_num [min_def]
    exact round1_zero
  · show (if (90 : ℚ) ≤ min ((0 : ℚ) * (1 / 2)) 50 + min ((0 : ℚ) * (1 / 2)) 50 then "A+"
      else if (80 : ℚ) ≤ min ((0 : ℚ) * (1 / 2)) 50 + min ((0 : ℚ) * (1 / 2)) 50 then "A"
      else if (70 : ℚ) ≤ min ((0 : ℚ) * (1 / 2)) 50 + min ((0 : ℚ) * (1 / 2)) 50 then "B"
      else if (60 : ℚ) ≤ min ((0 : ℚ) * (1 / 2)) 50 + min ((0 : ℚ) * (1 / 2)) 50 then "C"
      else "D") = "D"
    norm_num [min_def]

/-! ## Claim C6: single completed task, no habits -/

theorem single_task_in_window_metrics (s e : ℤ) (now : ℚ) (t : Task) (c : ℚ)
    (hst : t.status = TaskStatus.completed)
    (hcr : t.created_at = some c) (hc1 : dayStartTs s ≤ c) (hc2 : c ≤ dayEndTs e) :
    (get_task_metrics [t] s e now).completion_rate = 100 := by
  have hwint : taskInWindow t s e = true := by
    simp only [taskInWindow, hcr, Bool.and_eq_true, decide_eq_true_eq]
    exact ⟨hc1, hc2⟩
  have hfil : [t].filter (fun x => taskInWindow x s e) = [t] := by
    simp [List.filter_cons, hwint]
  have hfst : [t].filter (fun x => x.status == TaskStatus.completed) = [t] := by
    simp [List.filter_cons, hst]
  unfold get_task_metrics
  rw [hfil]
  simp only [List.isEmpty_cons, Bool.false_eq_true, if_false, hfst, List.length_cons,
    List.length_nil]
  show round2 (if 0 < 1 then ((1 : ℕ) : ℚ) / ((1 : ℕ) : ℚ) * 100 else 0) = 100
  rw [if_pos (by omega)]
  have h1 : ((1 : ℕ) : ℚ) / ((1 : ℕ) : ℚ) * 100 = 100 := by norm_num
  rw [h1]
  exact round2_hundred

/-- C6 counterexample: a 7-day window holding exactly one task, created and
completed inside it, and no habits yields `overall_score = 50.0` — and the
grade thresholds (≥60 → "C", else "D") then give grade "D", not the
claimed "C". -/
theorem single_task_overview_cex :
    (calculate_productivity_score
        (get_task_metrics
          [⟨TaskStatus.completed, TaskPriority.medium, none, some 7200, some 3600⟩] 0 6 0)
        (get_habit_metrics [] [] 0 6)).grade = "D" ∧
    ¬ ((calculate_productivity_score
        (get_task_metrics
          [⟨TaskStatus.completed, TaskPriority.medium, none, some 7200, some 3600⟩] 0 6 0)
        (get_habit_metrics [] [] 0 6)).grade = "C") := by
  have hcr : (get_task_metrics
      [⟨TaskStatus.completed, TaskPriority.medium, none, some 7200, some 3600⟩] 0 6 0).completion_rate
      = 100 := by
    apply single_task_in_window_metrics 0 6 0 _ 3600 rfl rfl
    · show dayStartTs 0 ≤ 3600
      norm_num [dayStartTs]
    · show (3600 : ℚ) ≤ dayEndTs 6
      norm_num [dayEndTs]
  have hhm : get_habit_metrics [] [] 0 6 = ⟨0, 0, 0, 0, 0, 0⟩ := rfl
  have hgr : (calculate_productivity_score
      (get_task_metrics
        [⟨TaskStatus.completed, TaskPriority.medium, none, some 7200, some 3600⟩] 0 6 0)
      (get_habit_metrics [] [] 0 6)).grade = "D" := by
    unfold calculate_productivity_score
    rw [hcr, hhm]
    norm_num [min_def]
  exact ⟨hgr, by rw [hgr]; decide⟩

/-- C6 amended: for any 7-day window holding exactly one task, created (and
completed) within it, and no habits, the overview yields
`tasks.completion_rate = 100.0`, `habits.total_habits = 0`,
`overall_score.overall_score = 50.0`, and — per the ≥60 threshold —
`grade = "D"` (not "C"). -/
theorem single_task_overview_amended (s e : ℤ) (now : ℚ) (t : Task) (c cc : ℚ)
    (hwin : e = s + 6)
    (hst : t.status = TaskStatus.completed)
    (hcr : t.created_at = some c) (hc1 : dayStartTs s ≤ c) (hc2 : c ≤ dayEndTs e)
    (hco : t.completed_at = some cc) (hcc1 : dayStartTs s ≤ cc) (hcc2 : cc ≤ dayEndTs e) :
    (get_task_metrics [t] s e now).completion_rate = 100 ∧
    (get_habit_metrics [] [] s e).total_habits = 0 ∧
    (calculate_productivity_score (get_task_metrics [t] s e now)
        (get_habit_metrics [] [] s e)).overall_score = 50 ∧
    (calculate_productivity_score (get_task_metrics [t] s e now)
        (get_habit_metrics [] [] s e)).grade = "D" := by
  have hcr100 := single_task_in_window_metrics s e now t c hst hcr hc1 hc2
  have hhm : get_habit_metrics [] [] s e = ⟨0, 0, 0, 0, 0, 0⟩ := rfl
  refine ⟨hcr100, by rw [hhm], ?_, ?_⟩
  · unfold calculate_productivity_score
    rw [hcr100, hhm]
    norm_num [min_def]
    exact round1_fifty
  · unfold calculate_productivity_score
    rw [hcr100, hhm]
    norm_num [min_def]

theorem single_task_overview_amended_witness :
    ((6 : ℤ) = 0 + 6 ∧
      (⟨TaskStatus.completed, TaskPriority.medium, none, some 7200, some 3600⟩ : Task).status
        = TaskStatus.completed) ∧
    ((get_task_metrics
        [⟨TaskStatus.completed, TaskPriority.medium, none, some 7200, some 3600⟩] 0 6 0).completion_rate
        = 100 ∧
      (get_habit_metrics [] [] 0 6).total_habits = 0 ∧
      (calculate_productivity_score
        (get_task_metrics
          [⟨TaskStatus.completed, TaskPriority.medium, none, some 7200, some 3600⟩] 0 6 0)
        (get_habit_metrics [] [] 0 6)).overall_score = 50 ∧
      (calculate_productivity_score
        (get_task_metrics
          [⟨TaskStatus.completed, TaskPriority.medium, none, some 7200, some 3600⟩] 0 6 0)
        (get_habit_metrics [] [] 0 6)).grade = "D") :=
  ⟨⟨rfl, rfl⟩,
    single_task_overview_amended 0 6 0
      ⟨TaskStatus.completed, TaskPriority.medium, none, some 7200, some 3600⟩ 3600 7200
      rfl rfl rfl (by norm_num [dayStartTs]) (by norm_num [dayEndTs])
      rfl (by norm_num [dayStartTs]) (by norm_num [dayEndTs])⟩

/-! ## Claim C8: average completion time -/

/-- C8 amended: the reported average completion time is `None` exactly when
either no in-window task has `status == completed` together with both
timestamps set, or the mean duration over those tasks is exactly 0 hours
(Python's `round(x, 2) if x else None` truthiness also maps a zero mean to
`None`); otherwise it is that mean, rounded to two decimals. -/
theorem avg_completion_time_amended (tasks : List Task) (s e : ℤ) (now : ℚ) :
    ((get_task_metrics tasks s e now).average_completion_time_hours = none ↔
      (completedWithTimes (tasks.filter (fun x => taskInWindow x s e)) = [] ∨
        meanCompletionHours
          (completedWithTimes (tasks.filter (fun x => taskInWindow x s e))) = 0)) ∧
    (∀ v, (get_task_metrics tasks s e now).average_completion_time_hours = some v →
      completedWithTimes (tasks.filter (fun x => taskInWindow x s e)) ≠ [] ∧
      meanCompletionHours
          (completedWithTimes (tasks.filter (fun x => taskInWindow x s e))) ≠ 0 ∧
      v = round2 (meanCompletionHours
          (completedWithTimes (tasks.filter (fun x => taskInWindow x s e))))) := by
  unfold get_task_metrics
  by_cases hF : (tasks.filter (fun x => taskInWindow x s e)).isEmpty
  · rw [if_pos hF]
    have hnil : tasks.filter (fun x => taskInWindow x s e) = [] := by
      simpa using hF
    constructor
    · simp [hnil, completedWithTimes]
    · intro v hv
      cases hv
  · rw [if_neg hF]
    rw [show ∀ (a b : ℕ) (c : ℚ) (d : ℕ) (p : Option (TaskPriority → PriorityStat))
        (q : Option (TaskStatus → ℕ)) (r : Option ℚ),
        (TaskMetrics.mk a b c d p q r).average_completion_time_hours = r
      from fun _ _ _ _ _ _ _ => rfl]
    split_ifs with h1 h2
    · refine ⟨by simp only [true_iff]; exact Or.inl (by simpa using h1), ?_⟩
      intro v hv
      cases hv
    · refine ⟨by simp only [true_iff]; exact Or.inr h2, ?_⟩
      intro v hv
      cases hv
    · refine ⟨?_, ?_⟩
      · simp only [false_iff]
        push_neg
        constructor
        · intro hnil
          exact h1 (by simp [hnil])
        · exact h2
      · intro v hv
        refine ⟨fun hnil => h1 (by simp [hnil]), h2, ?_⟩
        exact (Option.some.inj hv).symm

/-- C8 counterexample: two in-window tasks with both timestamps set — one
completed at exactly its creation instant, one still `todo` with a 1-hour
span.  The claim says the average must be non-null (qualifying tasks
exist), but the code reports `None`: its denominator also requires
`status == completed`, and the single qualifying task's mean of 0.0 hours
is then swallowed by the `if average_completion_time` truthiness test. -/
theorem avg_completion_time_cex :
    (get_task_metrics
        [⟨TaskStatus.completed, TaskPriority.medium, none, some 3600, some 3600⟩,
         ⟨TaskStatus.todo, TaskPriority.medium, none, some 7200, some 3600⟩]
        0 6 0).average_completion_time_hours = none ∧
    taskInWindow ⟨TaskStatus.todo, TaskPriority.medium, none, some 7200, some 3600⟩ 0 6
        = true ∧
    (⟨TaskStatus.todo, TaskPriority.medium, none, some 7200, some 3600⟩ : Task).completed_at.isSome
        = true ∧
    (⟨TaskStatus.todo, TaskPriority.medium, none, some 7200, some 3600⟩ : Task).created_at.isSome
        = true := by
  have hw1 : taskInWindow
      ⟨TaskStatus.completed, TaskPriority.medium, none, some 3600, some 3600⟩ 0 6 = true := by
    simp only [taskInWindow, Bool.and_eq_true, decide_eq_true_eq]
    constructor
    · norm_num [dayStartTs]
    · norm_num [dayEndTs]
  have hw2 : taskInWindow
      ⟨TaskStatus.todo, TaskPriority.medium, none, some 7200, some 3600⟩ 0 6 = true := by
    simp only [taskInWindow, Bool.and_eq_true, decide_eq_true_eq]
    constructor
    · norm_num [dayStartTs]
    · norm_num [dayEndTs]
  refine ⟨?_, hw2, rfl, rfl⟩
  have hfil : [(⟨TaskStatus.completed, TaskPriority.medium, none, some 3600, some 3600⟩ : Task),
      ⟨TaskStatus.todo, TaskPriority.medium, none, some 7200, some 3600⟩].filter
        (fun x => taskInWindow x 0 6)
      = [⟨TaskStatus.completed, TaskPriority.medium, none, some 3600, some 3600⟩,
         ⟨TaskStatus.todo, TaskPriority.medium, none, some 7200, some 3600⟩] := by
    simp [List.filter_cons, hw1, hw2]
  have hcwt : completedWithTimes
      [(⟨TaskStatus.completed, TaskPriority.medium, none, some 3600, some 3600⟩ : Task),
       ⟨TaskStatus.todo, TaskPriority.medium, none, some 7200, some 3600⟩]
      = [⟨TaskStatus.completed, TaskPriority.medium, none, some 3600, some 3600⟩] := by
    simp [completedWithTimes, List.filter_cons]
  have hmean : meanCompletionHours
      [(⟨TaskStatus.completed, TaskPriority.medium, none, some 3600, some 3600⟩ : Task)]
      = 0 := by
    unfold meanCompletionHours
    simp [Option.getD]
  unfold get_task_metrics
  rw [hfil]
  simp only [List.isEmpty_cons, Bool.false_eq_true, if_false]
  rw [hcwt]
  rw [if_neg (by simp)]
  rw [if_pos hmean]

theorem avg_one_hour_eval :
    (get_task_metrics
        [⟨TaskStatus.completed, TaskPriority.medium, none, some 7200, some 3600⟩]
        0 6 0).average_completion_time_hours = some 1 := by
  have hw1 : taskInWindow
      ⟨TaskStatus.completed, TaskPriority.medium, none, some 7200, some 3600⟩ 0 6 = true := by
    simp only [taskInWindow, Bool.and_eq_true, decide_eq_true_eq]
    constructor
    · norm_num [dayStartTs]
    · norm_num [dayEndTs]
  have hfil : [(⟨TaskStatus.completed, TaskPriority.medium, none, some 7200, some 3600⟩ : Task)].filter
        (fun x => taskInWindow x 0 6)
      = [⟨TaskStatus.completed, TaskPriority.medium, none, some 7200, some 3600⟩] := by
    simp [List.filter_cons, hw1]
  have hcwt : completedWithTimes
      [(⟨TaskStatus.completed, TaskPriority.medium, none, some 7200, some 3600⟩ : Task)]
      = [⟨TaskStatus.completed, TaskPriority.medium, none, some 7200, some 3600⟩] := by
    simp [completedWithTimes, List.filter_cons]
  have hmean : meanCompletionHours
      [(⟨TaskStatus.completed, TaskPriority.medium, none, some 7200, some 3600⟩ : Task)]
      = 1 := by
    unfold meanCompletionHours
    simp [Option.getD]
    norm_num
  unfold get_task_metrics
  rw [hfil]
  simp only [List.isEmpty_cons, Bool.false_eq_true, if_false]
  rw [hcwt, hmean]
  rw [if_neg (by simp)]
  rw [if_neg (by norm_num)]
  rw [show round2 1 = 1 by simpa using round2_intCast 1]

theorem avg_completion_time_amended_witness :
    completedWithTimes
        ([(⟨TaskStatus.completed, TaskPriority.medium, none, some 7200, some 3600⟩ : Task)].filter
          (fun x => taskInWindow x 0 6)) ≠ [] ∧
    meanCompletionHours (completedWithTimes
        ([(⟨TaskStatus.completed, TaskPriority.medium, none, some 7200, some 3600⟩ : Task)].filter
          (fun x => taskInWindow x 0 6))) ≠ 0 ∧
    (1 : ℚ) = round2 (meanCompletionHours (completedWithTimes
        ([(⟨TaskStatus.completed, TaskPriority.medium, none, some 7200, some 3600⟩ : Task)].filter
          (fun x => taskInWindow x 0 6)))) :=
  (avg_completion_time_amended
    [⟨TaskStatus.completed, TaskPriority.medium, none, some 7200, some 3600⟩] 0 6 0).2
    1 avg_one_hour_eval

theorem empty_overview_amended_witness :
    (get_task_metrics [] 0 30 0).completion_rate = 0 ∧
    (get_habit_metrics [] [] 0 30).consistency_rate = 0 ∧
    (calculate_productivity_score (get_task_metrics [] 0 30 0)
        (get_habit_metrics [] [] 0 30)).overall_score = 0 ∧
    (calculate_productivity_score (get_task_metrics [] 0 30 0)
        (get_habit_metrics [] [] 0 30)).grade = "D" ∧
    generate_recommendations (get_task_metrics [] 0 30 0) (get_habit_metrics [] [] 0 30)
        = [Recommendation.lowCompletion, Recommendation.highPriorityFocus,
           Recommendation.startHabits, Recommendation.buildStreaks] ∧
    generate_recommendations (get_task_metrics [] 0 30 0)
        (get_habit_metrics [] [] 0 30) ≠ [] :=
  empty_overview_amended 0 30 0
